import Mathlib

/-!
Shallow embedding of the `mx-sdk-rust-contract-builder` repository:
`build_within_docker.py` and `multiversx_sdk_rust_contract_builder/source_code.py`.

Paths are modelled as lists of components (`pathlib.PurePath.parts`); file
contents as strings of bytes.  A directory tree is the flat list of
(relative path, content) pairs, in the order the directory walk (`os.walk`)
enumerates the files.
-/

namespace ContractBuilder

/-- A filesystem path: its list of components. -/
abbrev FsPath := List String

/-- Raw file content (a byte string). -/
abbrev Content := String

/-- A directory tree: the files under the root, keyed by path relative to the
root, listed in directory-walk order. -/
abbrev Dir := List (FsPath × Content)

/-- `pathlib.PurePath.name`: the final path component (empty for the empty path). -/
def pathName (p : FsPath) : String := p.getLastD ""

/-- Index of the last occurrence of a dot in a character list. -/
def lastDotIndex : List Char → Option Nat
  | [] => none
  | c :: cs =>
    match lastDotIndex cs with
    | some i => some (i + 1)
    | none => if c = '.' then some 0 else none

/-- `pathlib.PurePath.suffix` of a file name: the substring from the final dot,
empty when the dot is missing, leading, or trailing (pathlib keeps the
extension only when `0 < i < len(name) - 1` for the final dot index `i`). -/
def pySuffix (name : String) : String :=
  let cs := name.data
  match lastDotIndex cs with
  | none => ""
  | some i => if 0 < i ∧ i + 1 < cs.length then String.mk (cs.drop i) else ""

/-- `is_source_code_file` (build_within_docker.py): a file passes when its
suffix is `.rs`, or its name is one of the fixed manifest/lock/config
file names.  The test looks only at `path.suffix` and `path.name`. -/
def is_source_code_file (path : FsPath) : Bool :=
  if pySuffix (pathName path) = ".rs" then true
  else if pathName path ∈ ["Cargo.toml", "Cargo.lock", "elrond.json"] then true
  else false

/-- `get_files_recursively` (build_within_docker.py): walks the tree and keeps
the files accepted by the predicate (`None` means accept all).  The code
applies `should_include_file` to `Path(file)` - the bare file name - never to
the full path.  The `Path(file).is_dir()` guard likewise resolves the bare
name (against the process working directory), modelled by the observation
`isDirInCwd` of the bare name. -/
def get_files_recursively (isDirInCwd : String → Bool) (dir : Dir)
    (should_include_file : Option (FsPath → Bool)) : List FsPath :=
  let pred := should_include_file.getD fun _ => true
  (dir.filter fun e => !isDirInCwd (pathName e.1) && pred [pathName e.1]).map Prod.fst

/-- First-match association lookup, the model of opening the file at a path:
the content stored at that exact key, `none` when absent (an `open` failure). -/
def assocFind {κ ν : Type} [DecidableEq κ] : List (κ × ν) → κ → Option ν
  | [], _ => none
  | e :: fs, k => if e.1 = k then some e.2 else assocFind fs k

/-- Overwriting association update, the model of `open(path, "wb").write(c)`:
replace the content at an existing key, or append a fresh file (parent
directories are created with `exist_ok=True` and cannot fail). -/
def assocWrite {κ ν : Type} [DecidableEq κ] : List (κ × ν) → κ → ν → List (κ × ν)
  | [], k, v => [(k, v)]
  | e :: fs, k, v => if e.1 = k then (k, v) :: fs else e :: assocWrite fs k v

/-- Opening a file of a directory tree at a relative path. -/
def lookupFile (dir : Dir) (p : FsPath) : Option Content := assocFind dir p

/-- The six ASCII whitespace characters that Python `str.strip()` removes
(the manifest lines involved are ASCII text). -/
def isSpaceChar (c : Char) : Bool :=
  c = ' ' ∨ c = '\t' ∨ c = '\n' ∨ c = '\r' ∨ c = '\x0b' ∨ c = '\x0c'

/-- Python `str.strip()`: drop whitespace from both ends. -/
def pyStrip (cs : List Char) : List Char :=
  ((cs.dropWhile isSpaceChar).reverse.dropWhile isSpaceChar).reverse

/-- Python `str.split(sep)` for a one-character separator: the chunks between
the occurrences of the separator. -/
def splitOnChar (c : Char) : List Char → List (List Char)
  | [] => [[]]
  | x :: xs =>
    let r := splitOnChar c xs
    if x = c then [] :: r
    else (x :: r.headI) :: r.tail

/-- Python `line.split("=")[1]`: the second `=`-separated chunk (the code only
applies it to lines that contain an `=`; out of range is modelled as `""`). -/
def secondChunk (line : List Char) : List Char := (splitOnChar '=' line).getD 1 []

/-- Python `str.strip('"')` on the left: drop leading double quotes. -/
def dropQuotes (cs : List Char) : List Char := cs.dropWhile fun c => c = '"'

/-- Python `str.strip('"')`: drop double quotes from both ends. -/
def stripQuotes (cs : List Char) : List Char :=
  (dropQuotes (dropQuotes cs).reverse).reverse

/-- `get_contract_name_and_version` (build_within_docker.py): reads
`Cargo.toml` in the directory (`none` models the `open` failure when it is
absent), takes the first line starting with `name = ` / `version = ` (or a
default line when no line matches), and extracts the chunk after the first
`=`, trimmed and stripped of double quotes.  `readlines` keeps the trailing
newline on each line, which `strip()` removes; splitting on the newline
first is equivalent.  `parse_name_and_version` is the pure part applied to
the file's content. -/
def parse_name_and_version (content : Content) : String × String :=
  let lines := splitOnChar '\n' content.data
  let lineWithName :=
    (lines.find? fun l => "name = ".data.isPrefixOf l).getD "name = \"untitled\"".data
  let lineWithVersion :=
    (lines.find? fun l => "version = ".data.isPrefixOf l).getD "version = \"0.0.0\"".data
  (String.mk (stripQuotes (pyStrip (secondChunk lineWithName))),
   String.mk (stripQuotes (pyStrip (secondChunk lineWithVersion))))

/-- `get_contract_name_and_version` itself: open `Cargo.toml` of the
directory (failing when absent) and parse it. -/
def get_contract_name_and_version (dir : Dir) : Option (String × String) :=
  (lookupFile dir ["Cargo.toml"]).map parse_name_and_version

/-- One entry of a packaged project (`PackagedProjectEntry`). -/
structure PackagedProjectEntry where
  path : FsPath
  content : Content
deriving DecidableEq, Repr

/-- `PackagedProject`: a named, versioned bundle of entries. -/
structure PackagedProject where
  name : String
  version : String
  entries : List PackagedProjectEntry
deriving DecidableEq, Repr

/-- `PackagedProject._create_entries_from_folder`: the files that the walk
selects through `is_source_code_file`, each read back from the tree and
keyed by its path relative to the folder (paths in the model are already
relative, so `relative_to` is the identity). -/
def create_entries_from_folder (isDirInCwd : String → Bool) (dir : Dir) :
    List PackagedProjectEntry :=
  (get_files_recursively isDirInCwd dir (some is_source_code_file)).map fun p =>
    { path := p, content := (lookupFile dir p).getD "" }

/-- `PackagedProject.from_folder`: entries from the walked folder, name and
version parsed from the folder's own `Cargo.toml` (failure when it is
absent). -/
def PackagedProject.from_folder (isDirInCwd : String → Bool) (dir : Dir) :
    Option PackagedProject :=
  (get_contract_name_and_version dir).map fun nv =>
    { name := nv.1, version := nv.2,
      entries := create_entries_from_folder isDirInCwd dir }

/-- `PackagedProject.unwrap_to_folder`: writes every entry, in sequence order,
at `folder / entry.path`, overwriting any existing file; no uniqueness check
is performed and no step can fail. -/
def unwrap_to_folder (entries : List PackagedProjectEntry) (fs : Dir) : Dir :=
  entries.foldl (fun acc e => assocWrite acc e.path e.content) fs

/-- The decoded serialized object for one entry, with optional fields.  The
`content` field carries the raw bytes that the base64 text of the JSON file
encodes (the base64 transport itself, a bijection on valid encodings, is not
modelled). -/
structure EntryDict where
  path : Option String
  content : Option Content
deriving DecidableEq, Repr

/-- The decoded serialized object for a packaged project, with optional fields. -/
structure ProjectDict where
  name : Option String
  version : Option String
  entries : Option (List EntryDict)
deriving DecidableEq, Repr

/-- `pathlib.Path(s)`: the path components of a string (empty chunks and `.`
chunks carry no component; the empty string is the empty relative path). -/
def pyPath (s : String) : FsPath :=
  ((splitOnChar '/' s.data).map String.mk).filter fun c => c ≠ "" ∧ c ≠ "."

/-- `PackagedProjectEntry.from_dict`: a missing `path` defaults to the empty
string, a missing `content` to the empty byte string (`b64decode("")`). -/
def PackagedProjectEntry.from_dict (d : EntryDict) : PackagedProjectEntry :=
  { path := pyPath (d.path.getD ""), content := d.content.getD "" }

/-- `PackagedProject.from_dict`: `name` defaults to `"untitled"`, `version` to
`"0.0.0"`, `entries` to the empty list; the function is total, a missing
field never raises. -/
def PackagedProject.from_dict (d : ProjectDict) : PackagedProject :=
  { name := d.name.getD "untitled"
    version := d.version.getD "0.0.0"
    entries := (d.entries.getD []).map PackagedProjectEntry.from_dict }

/-- `find_file_in_folder`: `folder.rglob(pattern)` yields the matching files in
discovery order, modelled as the filter of the recursive enumeration
`globResults` by the pattern.  Zero matches raise; more than one match only
logs a warning and the first match is kept.  (`rglob` results carry the
folder prefix and `folder / m` re-joins an absolute match to itself, so the
returned file is the first match.) -/
def find_file_in_folder (globResults : List FsPath) (pattern : FsPath → Bool) :
    Except String (FsPath × List String) :=
  let files := globResults.filter pattern
  match files with
  | [] => Except.error "No file matches pattern in folder"
  | f :: rest =>
    Except.ok (f,
      if rest = [] then []
      else ["More files match pattern in folder. Will pick first"])

/-- `ONE_KB_IN_BYTES` (build_within_docker.py). -/
def ONE_KB_IN_BYTES : Nat := 1024

/-- `MAX_SOURCE_CODE_ARCHIVE_SIZE` (build_within_docker.py). -/
def MAX_SOURCE_CODE_ARCHIVE_SIZE : Nat := ONE_KB_IN_BYTES * 1024

/-- `MAX_OUTPUT_ARTIFACTS_ARCHIVE_SIZE` (build_within_docker.py). -/
def MAX_OUTPUT_ARTIFACTS_ARCHIVE_SIZE : Nat := ONE_KB_IN_BYTES * 1024

/-- The entry list of a written zip archive: each selected file keyed by its
path relative to the archived directory. -/
abbrev ZipEntries := List (FsPath × Content)

/-- The output directory seen as a map from archive file name to the zip
entries written there. -/
abbrev ArchiveFs := List (String × ZipEntries)

/-- `archive_directory`: walk the directory with the optional predicate
(`None` accepts every file) and write each selected file into the zip, keyed
by its path relative to the directory.  Returns the archive's entry list. -/
def archive_directory (isDirInCwd : String → Bool) (dir : Dir)
    (should_include_file : Option (FsPath → Bool)) : ZipEntries :=
  (get_files_recursively isDirInCwd dir should_include_file).map fun p =>
    (p, (lookupFile dir p).getD "")

/-- The subtree of a directory under one child, with paths relative to that
child (`input_directory / "output"`). -/
def subDir (dir : Dir) (child : String) : Dir :=
  (dir.filter fun e => e.1.head? = some child).map fun e => (e.1.tail, e.2)

/-- `Path.stat().st_size` of an archive file in the output directory: `none`
models the failure when no such file exists; `zipSize` abstracts the
compressed on-disk size of a written archive. -/
def archiveStatSize (zipSize : ZipEntries → Nat) (fs : ArchiveFs) (nm : String) :
    Option Nat :=
  (assocFind fs nm).map zipSize

/-- The name of the source-code archive, `{name}-src-{version}.zip`. -/
def srcArchiveName (contract_name contract_version : String) : String :=
  contract_name ++ "-src-" ++ contract_version ++ ".zip"

/-- The name of the output-artifacts archive, `{name}-output-{version}.zip`. -/
def outArchiveName (contract_name contract_version : String) : String :=
  contract_name ++ "-output-" ++ contract_version ++ ".zip"

/-- Result of `create_archives`: the output directory and the warning lines
logged. -/
structure ArchivesResult where
  outFs : ArchiveFs
  warnings : List String
deriving Repr

/-- `create_archives`: write the source archive (classifier-filtered files of
the input directory) and the output archive (everything under
`input/output`); only after both writes, stat the two files on disk and
compare their sizes with the fixed ceilings; an oversize archive only
appends a `warn_file_too_large` line. -/
def create_archives (zipSize : ZipEntries → Nat) (isDirInCwd : String → Bool)
    (contract_name contract_version : String) (input : Dir) (outFs : ArchiveFs) :
    Option ArchivesResult := do
  let srcName := srcArchiveName contract_name contract_version
  let outName := outArchiveName contract_name contract_version
  let fs1 := assocWrite outFs srcName
    (archive_directory isDirInCwd input (some is_source_code_file))
  let fs2 := assocWrite fs1 outName
    (archive_directory isDirInCwd (subDir input "output") none)
  let sizeSrc ← archiveStatSize zipSize fs2 srcName
  let sizeOut ← archiveStatSize zipSize fs2 outName
  let w1 := if sizeSrc > MAX_SOURCE_CODE_ARCHIVE_SIZE
    then ["File is too large: " ++ srcName] else []
  let w2 := if sizeOut > MAX_OUTPUT_ARTIFACTS_ARCHIVE_SIZE
    then ["File is too large: " ++ outName] else []
  pure { outFs := fs2, warnings := w1 ++ w2 }

/-- Outcome of `main`: normal completion, a raised `ErrKnown`, or the
`SystemExit` that `exit(code)` raises. -/
inductive RunOutcome where
  | ok
  | errKnown (msg : String)
  | sysExit (code : Nat)
deriving DecidableEq, Repr

/-- One contract as the orchestrator sees it: its name and the exit status of
the external `cargo run build` invocation for it. -/
structure Contract where
  name : String
  buildExitCode : Nat
deriving DecidableEq, Repr

/-- The per-contract loop of `main` over the (sorted) contract directories,
with no `--contract` filter given: each contract is cleaned, built and
post-processed in order; `build` calls `exit(return_code)` on the first
non-zero compiler status, so the loop never reaches the later contracts.
Returns the outcome together with the names of the contracts whose pipeline
completed (reached `gather_artifacts`). -/
def runContracts : List Contract → RunOutcome × List String
  | [] => (RunOutcome.ok, [])
  | c :: rest =>
    if c.buildExitCode ≠ 0 then (RunOutcome.sysExit c.buildExitCode, [])
    else
      let r := runContracts rest
      (r.1, c.name :: r.2)

/-- The control flow of `main` that the claims observe: the configuration
check raises `ErrKnown` when neither `--project` nor `--packaged-project` is
given; otherwise the per-contract loop runs. -/
def main_model (project packagedProject : Option String)
    (contracts : List Contract) : RunOutcome × List String :=
  if project.isNone && packagedProject.isNone then
    (RunOutcome.errKnown
      "One of the following must be provided: --project, --packaged-project", [])
  else runContracts contracts

/-- The `__main__` guard: `ErrKnown` is caught, two lines are printed and the
interpreter then terminates normally; any other exception - in particular
the `SystemExit` of `exit(code)` - passes through and sets the process
status.  Returns (process exit status, printed error lines). -/
def topLevelGuard (outcome : RunOutcome) : Nat × List String :=
  match outcome with
  | RunOutcome.ok => (0, [])
  | RunOutcome.errKnown msg => (0, ["An error occurred.", msg])
  | RunOutcome.sysExit code => (code, [])

/-- Modelled from the spec: `get_all_files` lives in the module
`multiversx_sdk_rust_contract_builder/filesystem.py`, absent from src/; §4.2
of the spec describes the walker as listing every file under the root
recursively.  The walked tree holds relative paths, so the full paths are
the root-prefixed ones. -/
def get_all_files (projectFolder : FsPath) (dir : Dir) : List FsPath :=
  dir.map fun e => projectFolder ++ e.1

/-- `_get_source_code_files` (source_code.py): over all files of the folder,
drops the files under `target`, drops the `.rs` files, drops the fixed
manifest/lock/config names (with `CONTRACT_CONFIG_FILENAME` from the absent
`constants` module taken as a parameter), and keeps every remaining file;
its docstring describes the result as the source code files. -/
def _get_source_code_files (contractConfigFilename : String)
    (projectFolder : FsPath) (dir : Dir) : List FsPath :=
  (get_all_files projectFolder dir).filter fun p =>
    ¬ (projectFolder ++ ["target"]).isPrefixOf p ∧
    pySuffix (pathName p) ≠ ".rs" ∧
    pathName p ∉ ["Cargo.toml", "Cargo.lock", "multicontract.toml",
                  "sc-config.toml", contractConfigFilename]

/-! Helper lemmas about the association-list filesystem model. -/

theorem assocFind_eq_some_iff {κ ν : Type} [DecidableEq κ] {fs : List (κ × ν)}
    (hnd : (fs.map Prod.fst).Nodup) {k : κ} {v : ν} :
    assocFind fs k = some v ↔ (k, v) ∈ fs := by
  induction fs with
  | nil => simp [assocFind]
  | cons x xs ih =>
    obtain ⟨a, b⟩ := x
    simp only [List.map_cons, List.nodup_cons] at hnd
    simp only [assocFind]
    by_cases hx : a = k
    · subst hx
      rw [if_pos rfl]
      simp only [Option.some.injEq, List.mem_cons, Prod.mk.injEq, true_and]
      constructor
      · intro hv
        exact Or.inl hv.symm
      · rintro (hv | hv)
        · exact hv.symm
        · exact absurd (List.mem_map_of_mem Prod.fst hv) hnd.1
    · rw [if_neg hx, ih hnd.2]
      simp only [List.mem_cons, Prod.mk.injEq]
      constructor
      · exact fun hv => Or.inr hv
      · rintro (⟨h1, h2⟩ | hv)
        · exact absurd h1.symm hx
        · exact hv

theorem assocFind_eq_none_iff {κ ν : Type} [DecidableEq κ] {fs : List (κ × ν)} {k : κ} :
    assocFind fs k = none ↔ k ∉ fs.map Prod.fst := by
  induction fs with
  | nil => simp [assocFind]
  | cons x xs ih =>
    obtain ⟨a, b⟩ := x
    simp only [assocFind, List.map_cons, List.mem_cons, not_or]
    by_cases hx : a = k
    · simp [hx]
    · simp [hx, ih, Ne.symm hx]

theorem assocFind_perm {κ ν : Type} [DecidableEq κ] {l₁ l₂ : List (κ × ν)}
    (h : l₁.Perm l₂) (hnd : (l₁.map Prod.fst).Nodup) (k : κ) :
    assocFind l₁ k = assocFind l₂ k := by
  have hnd2 : (l₂.map Prod.fst).Nodup := ((h.map Prod.fst).nodup_iff).mp hnd
  cases h1 : assocFind l₁ k with
  | some v =>
    exact ((assocFind_eq_some_iff hnd2).mpr (h.mem_iff.mp ((assocFind_eq_some_iff hnd).mp h1))).symm
  | none =>
    have hk : k ∉ l₂.map Prod.fst := by
      intro hm
      exact assocFind_eq_none_iff.mp h1 ((h.map Prod.fst).mem_iff.mpr hm)
    exact (assocFind_eq_none_iff.mpr hk).symm

theorem assocFind_assocWrite {κ ν : Type} [DecidableEq κ]
    (fs : List (κ × ν)) (k k' : κ) (v : ν) :
    assocFind (assocWrite fs k v) k' = if k' = k then some v else assocFind fs k' := by
  induction fs with
  | nil =>
    simp only [assocWrite, assocFind]
    by_cases h : k' = k
    · simp [h]
    · simp [h, Ne.symm h]
  | cons e fs ih =>
    obtain ⟨a, b⟩ := e
    simp only [assocWrite]
    by_cases ha : a = k
    · simp only [if_pos ha, assocFind]
      by_cases h : k' = k
      · simp [h, ha]
      · simp [h, Ne.symm h, ha, assocFind]
    · simp only [if_neg ha, assocFind, ih]
      by_cases hk : a = k'
      · have hkk : ¬ k' = k := fun hh => ha (hk.trans hh)
        simp [hk, hkk]
      · simp [hk]

theorem assocWrite_of_fresh {κ ν : Type} [DecidableEq κ]
    {fs : List (κ × ν)} {k : κ} (v : ν) (h : k ∉ fs.map Prod.fst) :
    assocWrite fs k v = fs ++ [(k, v)] := by
  induction fs with
  | nil => rfl
  | cons e fs ih =>
    simp only [List.map_cons, List.mem_cons, not_or] at h
    rw [assocWrite, if_neg (fun he => h.1 he.symm), ih h.2, List.cons_append]

theorem lookupFile_of_mem {dir : Dir} (hnd : (dir.map Prod.fst).Nodup)
    {e : FsPath × Content} (he : e ∈ dir) : lookupFile dir e.1 = some e.2 := by
  exact (assocFind_eq_some_iff hnd).mpr (by rwa [Prod.mk.eta])

theorem pathName_concat (p : FsPath) (f : String) : pathName (p ++ [f]) = f := by
  simp [pathName, List.getLastD_eq_getLast?, List.getLast?_concat]

/-- The walk-selection predicate that `_create_entries_from_folder` and the
source archive both apply per walked file. -/
def keepsFile (isDirInCwd : String → Bool) (e : FsPath × Content) : Bool :=
  !isDirInCwd (pathName e.1) && is_source_code_file [pathName e.1]

theorem get_files_recursively_eq_filter (isDirInCwd : String → Bool) (dir : Dir) :
    get_files_recursively isDirInCwd dir (some is_source_code_file) =
      (dir.filter (keepsFile isDirInCwd)).map Prod.fst := by
  rfl

theorem create_entries_eq_filter (isDirInCwd : String → Bool) (dir : Dir)
    (hnd : (dir.map Prod.fst).Nodup) :
    create_entries_from_folder isDirInCwd dir =
      (dir.filter (keepsFile isDirInCwd)).map fun e => ⟨e.1, e.2⟩ := by
  rw [create_entries_from_folder, get_files_recursively_eq_filter, List.map_map]
  apply List.map_congr_left
  intro e he
  have hmem : e ∈ dir := List.mem_of_mem_filter he
  simp only [Function.comp_apply, lookupFile_of_mem hnd hmem, Option.getD_some]

theorem unwrap_to_folder_fresh (entries : List PackagedProjectEntry) (fs : Dir)
    (hnd : (entries.map PackagedProjectEntry.path).Nodup)
    (hdisj : ∀ e ∈ entries, e.path ∉ fs.map Prod.fst) :
    unwrap_to_folder entries fs = fs ++ entries.map fun e => (e.path, e.content) := by
  induction entries generalizing fs with
  | nil => simp [unwrap_to_folder]
  | cons e rest ih =>
    simp only [List.map_cons, List.nodup_cons] at hnd
    rw [unwrap_to_folder, List.foldl_cons,
      assocWrite_of_fresh e.content (hdisj e (List.mem_cons_self e rest))]
    rw [← unwrap_to_folder]
    rw [ih (fs ++ [(e.path, e.content)]) hnd.2]
    · simp
    · intro x hx
      simp only [List.map_append, List.mem_append, List.map_cons, List.map_nil,
        List.mem_singleton, not_or]
      refine ⟨hdisj x (List.mem_cons_of_mem e hx), fun hc => ?_⟩
      exact hnd.1 (hc ▸ List.mem_map_of_mem PackagedProjectEntry.path hx)

theorem runContracts_first_failure (pre : List Contract) (c : Contract)
    (post : List Contract) (hpre : ∀ x ∈ pre, x.buildExitCode = 0)
    (hc : c.buildExitCode ≠ 0) :
    runContracts (pre ++ c :: post) =
      (RunOutcome.sysExit c.buildExitCode, pre.map Contract.name) := by
  induction pre with
  | nil => simp [runContracts, hc]
  | cons x xs ih =>
    have hx : x.buildExitCode = 0 := hpre x (List.mem_cons_self x xs)
    have ihh := ih fun y hy => hpre y (List.mem_cons_of_mem x hy)
    simp [runContracts, hx, ihh]

theorem srcArchiveName_ne_outArchiveName (nm ver : String) :
    srcArchiveName nm ver ≠ outArchiveName nm ver := by
  intro h
  have hl := congrArg String.length h
  have h1 : String.length "-src-" = 5 := by decide
  have h2 : String.length "-output-" = 8 := by decide
  simp only [srcArchiveName, outArchiveName, String.length_append, h1, h2] at hl
  omega

theorem lookup_unwrap (entries : List PackagedProjectEntry) (fs : Dir) (p : FsPath) :
    lookupFile (unwrap_to_folder entries fs) p =
      match (entries.filter fun x => x.path = p).getLast? with
      | some e => some e.content
      | none => lookupFile fs p := by
  induction entries generalizing fs with
  | nil => simp [unwrap_to_folder]
  | cons x rest ih =>
    rw [unwrap_to_folder, List.foldl_cons, ← unwrap_to_folder, ih]
    by_cases hx : x.path = p
    · rw [List.filter_cons_of_pos (by simpa using hx)]
      cases hrest : (rest.filter fun y => y.path = p) with
      | nil =>
        simp only [List.getLast?_singleton, List.getLast?_nil, lookupFile,
          assocFind_assocWrite, if_pos hx.symm]
      | cons y ys =>
        rw [List.getLast?_cons_cons, List.getLast?_cons]
    · rw [List.filter_cons_of_neg (by simpa using hx)]
      cases hrest : (rest.filter fun y => y.path = p) with
      | nil =>
        simp only [List.getLast?_nil, lookupFile, assocFind_assocWrite,
          if_neg (fun hh : p = x.path => hx hh.symm)]
      | cons y ys => rfl

/-! Claim theorems. -/

/-- Claim C10: `unwrap_to_folder` writes its entries strictly in sequence
order with no uniqueness check - it is a total function, so a package with
two or more entries at the same relative path materializes without error -
and the file at such a path afterwards holds the content of the last entry
bearing that path. -/
theorem C10_unwrap_last_write_wins (entries : List PackagedProjectEntry)
    (fs : Dir) (p : FsPath) (e : PackagedProjectEntry)
    (hlast : (entries.filter fun x => x.path = p).getLast? = some e) :
    lookupFile (unwrap_to_folder entries fs) p = some e.content := by
  rw [lookup_unwrap, hlast]

/-- Witness for C10 at a concrete duplicated path: of the two entries at
path `a`, the second one's content is on disk. -/
theorem C10_witness :
    lookupFile
      (unwrap_to_folder
        [⟨["a"], "first"⟩, ⟨["src", "lib.rs"], "fn"⟩, ⟨["a"], "second"⟩] [])
      ["a"] = some "second" :=
  C10_unwrap_last_write_wins
    [⟨["a"], "first"⟩, ⟨["src", "lib.rs"], "fn"⟩, ⟨["a"], "second"⟩]
    [] ["a"] ⟨["a"], "second"⟩ (by decide)

/-- Claim C8: `PackagedProject.from_dict` is total and each missing field
falls back to its default: `name` to "untitled", `version` to "0.0.0",
`entries` to the empty list. -/
theorem C8_from_dict_defaults (d : ProjectDict) :
    (d.name = none → (PackagedProject.from_dict d).name = "untitled") ∧
    (d.version = none → (PackagedProject.from_dict d).version = "0.0.0") ∧
    (d.entries = none → (PackagedProject.from_dict d).entries = []) := by
  refine ⟨fun h => ?_, fun h => ?_, fun h => ?_⟩ <;>
    simp [PackagedProject.from_dict, h]

/-- Witness for C8 at the empty dictionary: all three defaults. -/
theorem C8_witness :
    (PackagedProject.from_dict ⟨none, none, none⟩).name = "untitled" ∧
    (PackagedProject.from_dict ⟨none, none, none⟩).version = "0.0.0" ∧
    (PackagedProject.from_dict ⟨none, none, none⟩).entries = [] :=
  ⟨(C8_from_dict_defaults ⟨none, none, none⟩).1 rfl,
   (C8_from_dict_defaults ⟨none, none, none⟩).2.1 rfl,
   (C8_from_dict_defaults ⟨none, none, none⟩).2.2 rfl⟩

/-- Claim C9: `get_files_recursively` applies its inclusion predicate to the
file's base name only, never to the full relative path: two files with the
same base name in different subdirectories are either both kept or both
dropped, for every tree and every predicate. -/
theorem C9_selection_base_name_only (isDirInCwd : String → Bool) (dir : Dir)
    (pred : FsPath → Bool) (p₁ p₂ : FsPath) (f : String) (c₁ c₂ : Content)
    (h₁ : (p₁ ++ [f], c₁) ∈ dir) (h₂ : (p₂ ++ [f], c₂) ∈ dir) :
    ((p₁ ++ [f]) ∈ get_files_recursively isDirInCwd dir (some pred) ↔
     (p₂ ++ [f]) ∈ get_files_recursively isDirInCwd dir (some pred)) := by
  have key : ∀ (p : FsPath) (c : Content), (p ++ [f], c) ∈ dir →
      ((p ++ [f]) ∈ get_files_recursively isDirInCwd dir (some pred) ↔
        (!isDirInCwd f && pred [f]) = true) := by
    intro p c hm
    simp only [get_files_recursively, Option.getD_some, List.mem_map,
      List.mem_filter]
    constructor
    · rintro ⟨e, ⟨hed, hef⟩, heq⟩
      rw [heq] at hef
      rwa [pathName_concat] at hef
    · intro hcond
      exact ⟨(p ++ [f], c), ⟨hm, by rwa [pathName_concat]⟩, rfl⟩
  rw [key p₁ c₁ h₁, key p₂ c₂ h₂]

/-- Witness for C9: the same base name `lib.rs` under two different
subdirectories, both kept. -/
theorem C9_witness :
    (["a", "lib.rs"] ∈ get_files_recursively (fun _ => false)
        [(["a", "lib.rs"], "1"), (["b", "lib.rs"], "2")]
        (some is_source_code_file) ↔
     ["b", "lib.rs"] ∈ get_files_recursively (fun _ => false)
        [(["a", "lib.rs"], "1"), (["b", "lib.rs"], "2")]
        (some is_source_code_file)) :=
  C9_selection_base_name_only (fun _ => false)
    [(["a", "lib.rs"], "1"), (["b", "lib.rs"], "2")] is_source_code_file
    ["a"] ["b"] "lib.rs" "1" "2" (by decide) (by decide)

/-- Claim C6: `find_file_in_folder` raises exactly when no file matches the
pattern; with at least one match it returns the first match in discovery
order, logging a warning (and not raising) precisely when the match is not
unique. -/
theorem C6_find_file_in_folder_spec (globResults : List FsPath)
    (pattern : FsPath → Bool) :
    ((∃ msg, find_file_in_folder globResults pattern = Except.error msg) ↔
      globResults.filter pattern = []) ∧
    (∀ f rest, globResults.filter pattern = f :: rest →
      find_file_in_folder globResults pattern =
        Except.ok (f, if rest = [] then []
          else ["More files match pattern in folder. Will pick first"])) := by
  cases h : globResults.filter pattern with
  | nil =>
    refine ⟨?_, fun f rest hfr => ?_⟩
    · simp [find_file_in_folder, h]
    · simp at hfr
  | cons f0 rest0 =>
    refine ⟨?_, fun f rest hfr => ?_⟩
    · simp [find_file_in_folder, h]
    · injection hfr with hf hr
      subst hf
      subst hr
      simp [find_file_in_folder, h]

/-- Witness for C6: two of three files match, the first is returned with the
ambiguity warning. -/
theorem C6_witness :
    find_file_in_folder [["out", "a.wasm"], ["out", "b.wasm"], ["out", "c.txt"]]
        (fun p => pySuffix (pathName p) = ".wasm") =
      Except.ok (["out", "a.wasm"],
        ["More files match pattern in folder. Will pick first"]) :=
  (C6_find_file_in_folder_spec
      [["out", "a.wasm"], ["out", "b.wasm"], ["out", "c.txt"]]
      (fun p => pySuffix (pathName p) = ".wasm")).2
    ["out", "a.wasm"] [["out", "b.wasm"]] (by decide)

/-- Claim C4 (code evaluation): with neither `--project` nor
`--packaged-project` given, `main` raises `ErrKnown` with its descriptive
message, the `__main__` guard catches it and prints the message, and the
process then terminates with exit status 0 - the `except` block never calls
`exit`, so the run does not end with a non-zero status. -/
theorem C4_missing_input_exits_zero :
    topLevelGuard (main_model none none []).1 =
      (0, ["An error occurred.",
           "One of the following must be provided: --project, --packaged-project"]) := by
  rfl

/-- Claim C3 (code evaluation): on a folder holding `lib.rs` and `README.md`,
`_get_source_code_files` drops the `.rs` file and keeps the unrelated file,
while `is_source_code_file` - the classifier every other selection routine
uses - selects `lib.rs` and rejects `README.md`; the two source-selection
routines disagree and the former contradicts its own docstring. -/
theorem C3_selection_routines_disagree :
    _get_source_code_files "multiversx.json" []
        [(["lib.rs"], "fn"), (["README.md"], "r")] = [["README.md"]] ∧
      is_source_code_file ["lib.rs"] = true ∧
      is_source_code_file ["README.md"] = false := by
  decide

/-- Claim C2 (counterexample): the classifier marks `meta/Cargo.toml` - a
fixed manifest name inside a metadata/build-tooling subdirectory - as
source, and the packaging walk keeps such a file; the exclusion the claim
describes does not exist in the code. -/
theorem C2_counterexample :
    is_source_code_file ["meta", "Cargo.toml"] = true ∧
      get_files_recursively (fun _ => false) [(["meta", "Cargo.toml"], "c")]
        (some is_source_code_file) = [["meta", "Cargo.toml"]] := by
  decide

/-- Claim C2 (amended): a file bearing one of the fixed
build-manifest/lock/config names is classified as source wherever it sits;
the classification depends only on the base name, with no directory-based
exception. -/
theorem C2_fixed_names_always_source (p : FsPath)
    (h : pathName p ∈ ["Cargo.toml", "Cargo.lock", "elrond.json"]) :
    is_source_code_file p = true := by
  rw [is_source_code_file]
  by_cases hs : pySuffix (pathName p) = ".rs"
  · rw [if_pos hs]
  · rw [if_neg hs, if_pos h]

/-- Witness for the amended C2 at `meta/Cargo.toml`. -/
theorem C2_amended_witness :
    is_source_code_file ["meta", "Cargo.toml"] = true :=
  C2_fixed_names_always_source ["meta", "Cargo.toml"] (by decide)

/-- Claim C7: a non-zero exit status of the external compiler invocation
raises `SystemExit` with that same status, which the `__main__` guard does
not catch, so the process terminates with the compiler's status; the
contracts after the failing one are never processed. -/
theorem C7_compiler_failure_aborts_run (project : String)
    (pre post : List Contract) (c : Contract)
    (hpre : ∀ x ∈ pre, x.buildExitCode = 0) (hc : c.buildExitCode ≠ 0) :
    topLevelGuard (main_model (some project) none (pre ++ c :: post)).1 =
        (c.buildExitCode, []) ∧
      (main_model (some project) none (pre ++ c :: post)).2 =
        pre.map Contract.name := by
  have hrun := runContracts_first_failure pre c post hpre hc
  have hmm : main_model (some project) none (pre ++ c :: post) =
      runContracts (pre ++ c :: post) := by
    simp [main_model]
  rw [hmm, hrun]
  exact ⟨rfl, rfl⟩

/-- Witness for C7: the second of three contracts fails with status 3; the
run exits with 3 and only the first contract was processed. -/
theorem C7_witness :
    topLevelGuard (main_model (some "project") none
        [⟨"adder", 0⟩, ⟨"farm", 3⟩, ⟨"router", 0⟩]).1 = (3, []) ∧
      (main_model (some "project") none
        [⟨"adder", 0⟩, ⟨"farm", 3⟩, ⟨"router", 0⟩]).2 = ["adder"] :=
  C7_compiler_failure_aborts_run "project" [⟨"adder", 0⟩] [⟨"router", 0⟩]
    ⟨"farm", 3⟩ (by decide) (by decide)

/-- Claim C5: `create_archives` stats the archive files only after both are
fully written, so the call always succeeds; whatever the sizes, both
archives stay in the output directory with their full contents (the source
archive holds the classifier-selected files, the output archive the
`output` subtree), and the only effect of exceeding a ceiling is a warning
line - the condition alone never fails the call. -/
theorem C5_size_ceiling_warns_only (zipSize : ZipEntries → Nat)
    (isDirInCwd : String → Bool) (nm ver : String) (input : Dir)
    (outFs : ArchiveFs) :
    ∃ r : ArchivesResult,
      create_archives zipSize isDirInCwd nm ver input outFs = some r ∧
      assocFind r.outFs (srcArchiveName nm ver) =
        some (archive_directory isDirInCwd input (some is_source_code_file)) ∧
      assocFind r.outFs (outArchiveName nm ver) =
        some (archive_directory isDirInCwd (subDir input "output") none) ∧
      (r.warnings = [] ↔
        (zipSize (archive_directory isDirInCwd input (some is_source_code_file)) ≤
            MAX_SOURCE_CODE_ARCHIVE_SIZE ∧
         zipSize (archive_directory isDirInCwd (subDir input "output") none) ≤
            MAX_OUTPUT_ARTIFACTS_ARCHIVE_SIZE)) := by
  have hne := srcArchiveName_ne_outArchiveName nm ver
  set srcE := archive_directory isDirInCwd input (some is_source_code_file)
    with hsrcE
  set outE := archive_directory isDirInCwd (subDir input "output") none
    with houtE
  set fs2 := assocWrite (assocWrite outFs (srcArchiveName nm ver) srcE)
    (outArchiveName nm ver) outE with hfs2
  have hfindSrc : assocFind fs2 (srcArchiveName nm ver) = some srcE := by
    rw [hfs2, assocFind_assocWrite, if_neg hne, assocFind_assocWrite, if_pos rfl]
  have hfindOut : assocFind fs2 (outArchiveName nm ver) = some outE := by
    rw [hfs2, assocFind_assocWrite, if_pos rfl]
  have hstat1 : archiveStatSize zipSize fs2 (srcArchiveName nm ver) =
      some (zipSize srcE) := by
    rw [archiveStatSize, hfindSrc, Option.map_some']
  have hstat2 : archiveStatSize zipSize fs2 (outArchiveName nm ver) =
      some (zipSize outE) := by
    rw [archiveStatSize, hfindOut, Option.map_some']
  refine ⟨{ outFs := fs2,
            warnings :=
              (if zipSize srcE > MAX_SOURCE_CODE_ARCHIVE_SIZE
                then ["File is too large: " ++ srcArchiveName nm ver] else []) ++
              (if zipSize outE > MAX_OUTPUT_ARTIFACTS_ARCHIVE_SIZE
                then ["File is too large: " ++ outArchiveName nm ver] else []) },
        ?_, hfindSrc, hfindOut, ?_⟩
  · simp only [create_archives, ← hsrcE, ← houtE, ← hfs2, hstat1, hstat2,
      Option.bind_eq_bind, Option.some_bind]
    rfl
  · simp only [List.append_eq_nil, ite_eq_right_iff, List.cons_ne_nil,
      imp_false, not_lt]

/-- Claim C1: packaging round trip.  For a directory tree `D` (distinct file
paths, walked in any order) whose capture `PackagedProject.from_folder`
succeeds, materializing the package into an empty directory with
`unwrap_to_folder` and re-capturing the result - again walked in any order,
hence the permutation hypothesis - succeeds and yields a package with the
same name, the same version, and the same entries up to permutation (entry
paths are distinct, so this is equality of the (path, content) sets).  The
hypothesis on `isDirInCwd` states that no directory of the process working
directory is named `Cargo.toml`, so the walk's `Path(file).is_dir()` guard
does not drop the manifest. -/
theorem C1_packaging_round_trip (isDirInCwd : String → Bool)
    (hct : isDirInCwd "Cargo.toml" = false)
    (D : Dir) (hnd : (D.map Prod.fst).Nodup) (pkg : PackagedProject)
    (hcap : PackagedProject.from_folder isDirInCwd D = some pkg)
    (D2 : Dir) (hperm : D2.Perm (unwrap_to_folder pkg.entries [])) :
    ∃ pkg2 : PackagedProject,
      PackagedProject.from_folder isDirInCwd D2 = some pkg2 ∧
      pkg2.name = pkg.name ∧ pkg2.version = pkg.version ∧
      pkg2.entries.Perm pkg.entries := by
  simp only [PackagedProject.from_folder, Option.map_eq_some'] at hcap
  obtain ⟨nv, hnv, hpkg⟩ := hcap
  simp only [get_contract_name_and_version, Option.map_eq_some'] at hnv
  obtain ⟨c, hc, hparse⟩ := hnv
  subst hpkg
  -- the filtered selection of D and its key properties
  have hEfilter := create_entries_eq_filter isDirInCwd D hnd
  have hsub : List.Sublist (D.filter (keepsFile isDirInCwd)) D :=
    List.filter_sublist D
  have hndFil : ((D.filter (keepsFile isDirInCwd)).map Prod.fst).Nodup :=
    hnd.sublist (hsub.map Prod.fst)
  have hkeys : (create_entries_from_folder isDirInCwd D).map
      PackagedProjectEntry.path = (D.filter (keepsFile isDirInCwd)).map Prod.fst := by
    rw [hEfilter, List.map_map]
    rfl
  -- materializing into the empty directory reproduces the filtered selection
  have hunwrap : unwrap_to_folder (create_entries_from_folder isDirInCwd D) [] =
      D.filter (keepsFile isDirInCwd) := by
    rw [unwrap_to_folder_fresh _ [] (by rw [hkeys]; exact hndFil) (by simp)]
    rw [List.nil_append, hEfilter, List.map_map]
    have hid : ((fun e : PackagedProjectEntry => (e.path, e.content)) ∘
        fun e : FsPath × Content => PackagedProjectEntry.mk e.1 e.2) = id := rfl
    rw [hid, List.map_id]
  have hD2 : D2.Perm (D.filter (keepsFile isDirInCwd)) := by
    rw [← hunwrap]
    exact hperm
  have hndD2 : (D2.map Prod.fst).Nodup :=
    ((hD2.map Prod.fst).nodup_iff).mpr hndFil
  -- the manifest file survives the round trip with the same content
  have hmemD : (["Cargo.toml"], c) ∈ D := (assocFind_eq_some_iff hnd).mp hc
  have hkeep : keepsFile isDirInCwd (["Cargo.toml"], c) = true := by
    simp only [keepsFile, pathName, List.getLastD_eq_getLast?]
    rw [show (["Cargo.toml"] : FsPath).getLast? = some "Cargo.toml" from rfl]
    simp [hct]
    decide
  have hmemD2 : (["Cargo.toml"], c) ∈ D2 :=
    hD2.mem_iff.mpr (List.mem_filter.mpr ⟨hmemD, hkeep⟩)
  have hlookD2 : lookupFile D2 ["Cargo.toml"] = some c :=
    (assocFind_eq_some_iff hndD2).mpr hmemD2
  have hnv2 : get_contract_name_and_version D2 = some nv := by
    rw [get_contract_name_and_version, hlookD2, Option.map_some', hparse]
  -- every file of D2 passes the classifier again
  have hfilterD2 : D2.filter (keepsFile isDirInCwd) = D2 := by
    rw [List.filter_eq_self]
    intro e he
    exact (List.mem_filter.mp (hD2.mem_iff.mp he)).2
  have hpermEnt : (create_entries_from_folder isDirInCwd D2).Perm
      (create_entries_from_folder isDirInCwd D) := by
    rw [create_entries_eq_filter isDirInCwd D2 hndD2, hfilterD2, hEfilter]
    exact hD2.map _
  exact ⟨{ name := nv.1, version := nv.2,
           entries := create_entries_from_folder isDirInCwd D2 },
    by rw [PackagedProject.from_folder, hnv2, Option.map_some'], rfl, rfl, hpermEnt⟩

/-- Witness for C1 on a concrete three-file project (manifest, a `.rs` file,
and an excluded `README.md`), with the materialized directory re-walked in
reverse order. -/
theorem C1_witness :
    ∃ pkg2 : PackagedProject,
      PackagedProject.from_folder (fun _ => false)
          [(["src", "lib.rs"], "fn main"),
           (["Cargo.toml"], "name = \"farm\"\nversion = \"1.2.3\"")] = some pkg2 ∧
      pkg2.name = "farm" ∧ pkg2.version = "1.2.3" ∧
      pkg2.entries.Perm
        [⟨["Cargo.toml"], "name = \"farm\"\nversion = \"1.2.3\""⟩,
         ⟨["src", "lib.rs"], "fn main"⟩] :=
  C1_packaging_round_trip (fun _ => false) rfl
    [(["Cargo.toml"], "name = \"farm\"\nversion = \"1.2.3\""),
     (["src", "lib.rs"], "fn main"), (["README.md"], "readme")]
    (by decide)
    ⟨"farm", "1.2.3",
      [⟨["Cargo.toml"], "name = \"farm\"\nversion = \"1.2.3\""⟩,
       ⟨["src", "lib.rs"], "fn main"⟩]⟩
    (by decide)
    [(["src", "lib.rs"], "fn main"),
     (["Cargo.toml"], "name = \"farm\"\nversion = \"1.2.3\"")]
    (by decide)

end ContractBuilder
